import Mathlib

/-!
Shallow embedding of the `ChartCanvas` renderer of `src/client/src/App.jsx`
(the chart core of the EchoMind dashboard) and proofs about it.

JavaScript numbers are modelled as exact rationals, with `none : Option Rat`
standing for NaN and for the non-finite results of coercing non-numeric
values; this is adequate for the dyadic values the properties exercise.
A render call is modelled as the list of drawing primitives issued to the
2D context, in order, together with an optional uncaught exception: the
primitive list holds exactly the calls the context received before the
exception (if any) was thrown, which matches what ends up on the canvas.
-/

unseal Rat.add Rat.sub Rat.mul Rat.inv

/-- A JavaScript value, as far as the renderer inspects its input.  The
`nan` constructor is the floating-point NaN; all other numbers are exact
rationals.  Objects are association lists in insertion order with distinct
keys (the invariant every genuine JS object satisfies). -/
inductive JSValue where
  | num (q : ℚ)
  | nan
  | str (s : String)
  | bool (b : Bool)
  | null
  | undefined
  | obj (fields : List (String × JSValue))
  | arr (elems : List JSValue)

/-- A record of a series: one frame, as the association list of an object. -/
abbrev Frame := List (String × JSValue)

/-- JavaScript truthiness: everything is truthy except `0`, `NaN`, the empty
string, `false`, `null` and `undefined`. -/
def truthy : JSValue → Bool
  | .num q => decide (q ≠ 0)
  | .nan => false
  | .str s => decide (s ≠ "")
  | .bool b => b
  | .null => false
  | .undefined => false
  | .obj _ => true
  | .arr _ => true

/-- The idiom `v || 0` of the renderer: a falsy channel value is replaced by
the number 0 before any geometry is computed. -/
def orZero (v : JSValue) : JSValue := if truthy v then v else .num 0

/-- JS `ToNumber`, restricted to the values the renderer can meet: plain
objects and arrays coerce to NaN, as do non-numeric strings (numeric strings
are not exercised by any render input considered here). -/
def toJNum : JSValue → Option ℚ
  | .num q => some q
  | .nan => none
  | .bool b => some (if b then 1 else 0)
  | .null => some 0
  | .undefined => none
  | .str _ => none
  | .obj _ => none
  | .arr _ => none

/-- NaN-propagating multiplication. -/
def jmul : Option ℚ → Option ℚ → Option ℚ
  | some a, some b => some (a * b)
  | _, _ => none

/-- NaN-propagating subtraction. -/
def jsub : Option ℚ → Option ℚ → Option ℚ
  | some a, some b => some (a - b)
  | _, _ => none

/-- NaN-propagating division; a zero denominator is mapped to `none` (the
renderer guards every division so this case is unreachable on its paths). -/
def jdiv : Option ℚ → Option ℚ → Option ℚ
  | some a, some b => if b = 0 then none else some (a / b)
  | _, _ => none

/-- JS property access `v[key]`: lookup on objects (insertion order, first
match), index access on arrays and strings, `undefined` on other primitives,
and a TypeError on `null` and `undefined`. -/
def getPropE : JSValue → String → Except String JSValue
  | .obj fields, key => .ok ((fields.lookup key).getD .undefined)
  | .arr elems, key =>
      .ok (match key.toNat? with
           | some i => (elems.get? i).getD .undefined
           | none => .undefined)
  | .str s, key =>
      .ok (match key.toNat? with
           | some i =>
               match s.data.get? i with
               | some c => .str (String.mk [c])
               | none => .undefined
           | none => .undefined)
  | .null, _ => .error "TypeError"
  | .undefined, _ => .error "TypeError"
  | .num _, _ => .ok .undefined
  | .nan, _ => .ok .undefined
  | .bool _, _ => .ok .undefined

/-- JS `Object.keys`: field names of an object in insertion order, index
strings for arrays and strings, the empty list for other primitives, and a
TypeError on `null` and `undefined`. -/
def jsKeysE : JSValue → Except String (List String)
  | .obj fields => .ok (fields.map Prod.fst)
  | .arr elems => .ok ((List.range elems.length).map (fun i => Nat.repr i))
  | .str s => .ok ((List.range s.length).map (fun i => Nat.repr i))
  | .null => .error "TypeError"
  | .undefined => .error "TypeError"
  | .num _ => .ok []
  | .nan => .ok []
  | .bool _ => .ok []

/-- A drawing primitive issued to the canvas 2D context, with the style in
force when it was issued.  Coordinates are `Option Rat`: `none` is NaN (the
canvas ignores calls with non-finite coordinates, so such a primitive paints
nothing). -/
inductive Prim where
  | clearRect (x y w h : ℚ)
  | strokePath (color : String) (lineWidth : ℚ) (points : List (Option ℚ × Option ℚ))
  | fillRect (color : String) (x y w h : Option ℚ)
  | fillText (color font text : String) (x y : Option ℚ)
deriving DecidableEq

/-- The fixed palette of the source (`const colors = [...]`). -/
def colors : List String := ["#7c5cff", "#22c55e", "#fbbf24", "#ef4444"]

/-- `val.toFixed` exists exactly when `val` is a JS number (NaN included);
on anything else the call raises a TypeError. -/
def toFixedOk : JSValue → Bool
  | .num _ => true
  | .nan => true
  | _ => false

/-- JS `Number.prototype.toFixed(2)` on an exact rational (`none` = NaN):
round to the nearest hundredth with ties toward plus infinity, then print
with exactly two fraction digits. -/
def jsToFixed2 : Option ℚ → String
  | none => "NaN"
  | some q =>
      let n : ℤ := (q * 100 + 1/2).floor
      let sign := if n < 0 then "-" else ""
      let m := n.natAbs
      sign ++ Nat.repr (m / 100) ++ "." ++
        (if m % 100 < 10 then "0" else "") ++ Nat.repr (m % 100)

/-- The short bar label computed by the source: replace every underscore of
the key by a space, then keep the first space-separated word (the prefix of
characters before the first space). -/
def barLabel (key : String) : String :=
  String.mk ((key.data.map (fun c => if c = '_' then ' ' else c)).takeWhile
    (fun c => c ≠ ' '))

/-- The point the series branch computes for the frame at position `i` of a
sequence of length `n`, given the looked-up channel value `v`:
`x = (i / (n - 1)) * W` and `y = H - 20 - ((v || 0) * (H - 40))`. -/
def seriesPoint (W H : ℚ) (n : Nat) (i : Nat) (v : JSValue) : Option ℚ × Option ℚ :=
  (jmul (jdiv (some (i : ℚ)) (some ((n : ℚ) - 1))) (some W),
   jsub (some (H - 20)) (jmul (toJNum (orZero v)) (some (H - 40))))

/-- The points of one channel of the series branch, walking the frames in
order; a TypeError while reading a frame aborts the walk. -/
def seriesPoints (W H : ℚ) (n : Nat) (key : String) :
    Nat → List JSValue → Except String (List (Option ℚ × Option ℚ))
  | _, [] => .ok []
  | i, p :: ps => do
      let v ← getPropE p key
      let rest ← seriesPoints W H n key (i + 1) ps
      .ok (seriesPoint W H n i v :: rest)

/-- The series (motion) chart body: one stroked path per channel key, in
key order, channel `idx` using `colors[idx % colors.length]` and line width
2.  A TypeError while building a path aborts the body; the unfinished path
was never stroked, so it contributes no primitive. -/
def seriesBody (W H : ℚ) (frames : List JSValue) :
    Nat → List String → List Prim × Option String
  | _, [] => ([], none)
  | idx, key :: ks =>
      match seriesPoints W H frames.length key 0 frames with
      | .error e => ([], some e)
      | .ok pts =>
          let r := seriesBody W H frames (idx + 1) ks
          (Prim.strokePath (colors.getD (idx % colors.length) "#000") 2 pts :: r.1,
           r.2)

/-- `Object.keys(data)` paired with `data[key]`, as the bar branch consumes
them: the fields of an object, the indexed elements of an array. -/
def barEntries : JSValue → List (String × JSValue)
  | .obj fields => fields
  | .arr elems => elems.enum.map (fun p => (Nat.repr p.1, p.2))
  | _ => []

/-- The bar chart body: per category, in order, a filled rect of width
`slot - 10` at `x = 10 + i * slot + 5` growing up from the baseline
`H - 20`, then the value label `val.toFixed(2)` just above the bar and the
category label at the bottom.  If `val` is a truthy non-number the
`toFixed` call raises a TypeError right after the rect was issued. -/
def renderBarBody (W H slot : ℚ) : List (String × JSValue) → Nat → List Prim × Option String
  | [], _ => ([], none)
  | (key, v) :: rest, i =>
      let val := orZero v
      let h := jmul (toJNum val) (some (H - 40))
      let x : Option ℚ := some (10 + (i : ℚ) * slot + 5)
      let y := jsub (some (H - 20)) h
      let rect := Prim.fillRect "rgba(124,92,255,0.85)" x y (some (slot - 10)) h
      if toFixedOk val then
        let r := renderBarBody W H slot rest (i + 1)
        (rect ::
           Prim.fillText "#fff" "11px sans-serif" (jsToFixed2 (toJNum val)) x
             (jsub y (some 6)) ::
           Prim.fillText "rgba(255,255,255,0.6)" "10px sans-serif" (barLabel key) x
             (some (H - 5)) :: r.1,
         r.2)
      else ([rect], some "TypeError")

/-- Step 1 of every repaint with truthy data: clear the full `W` by `H`
surface, then stroke the 5 horizontal guide lines
`y = 20 + (H - 40) * (i / 4)`, `i = 0 .. 4`, i.e. 5 evenly spaced lines at
quarter intervals from `y = 20` down to `y = H - 20`, in the low-opacity
neutral color of the source. -/
def clearGridPrims (W H : ℚ) : List Prim :=
  Prim.clearRect 0 0 W H ::
    (List.range 5).map (fun i =>
      Prim.strokePath "rgba(255,255,255,0.1)" 1
        [(some 0, some (20 + (H - 40) * ((i : ℚ) / 4))),
         (some W, some (20 + (H - 40) * ((i : ℚ) / 4)))])

/-- `Array.isArray`. -/
def isArray : JSValue → Bool
  | .arr _ => true
  | _ => false

/-- JS `typeof v` equals the string object: true for objects, arrays and
`null`. -/
def typeofObject : JSValue → Bool
  | .obj _ => true
  | .arr _ => true
  | .null => true
  | _ => false

/-- The elements of an array value. -/
def arrElems : JSValue → List JSValue
  | .arr l => l
  | _ => []

/-- The body of the `useEffect` of `ChartCanvas`, lines 41 to 102 of
`src/client/src/App.jsx`, as a function of the surface size, the `type`
prop and the `data` prop.  Falsy data returns before anything is drawn.
Otherwise the surface is cleared and the grid drawn; then the motion branch
runs when `type` is the motion string, the data is an array and its length
exceeds 1; else the bar branch runs when `type` is the bar string and
`typeof data` is the object string; else nothing more is drawn. -/
def chartCanvasRender (W H : ℚ) (type : String) (data : JSValue) :
    List Prim × Option String :=
  if truthy data = false then ([], none)
  else
    let gd := clearGridPrims W H
    if type = "motion" ∧ isArray data = true ∧ 1 < (arrElems data).length then
      match jsKeysE ((arrElems data).headD .undefined) with
      | .error e => (gd, some e)
      | .ok ks =>
          let r := seriesBody W H (arrElems data) 0 (ks.filter (fun k => k != "time"))
          (gd ++ r.1, r.2)
    else if type = "bar" ∧ typeofObject data = true then
      let entries := barEntries data
      if entries.length = 0 then (gd, none)
      else
        let r := renderBarBody W H ((W - 20) / (entries.length : ℚ)) entries 0
        (gd ++ r.1, r.2)
    else (gd, none)

/-- Recognizer for filled rectangles (the bars). -/
def isFillRect : Prim → Bool
  | .fillRect _ _ _ _ _ => true
  | _ => false

/-- The width field of a filled rectangle, 0 on anything else. -/
def rectW : Prim → ℚ
  | .fillRect _ _ _ (some w) _ => w
  | _ => 0

/-- The horizontal extent of a filled rectangle as a closed interval,
accounting for the canvas treatment of negative widths (the rect extends
in the negative direction). -/
def rectXInterval : Prim → ℚ × ℚ
  | .fillRect _ (some x) _ (some w) _ => (min x (x + w), max x (x + w))
  | _ => (0, 0)

/-- Two primitives overlap horizontally when the interiors of their
horizontal extents intersect. -/
def xOverlapB (a b : Prim) : Bool :=
  decide (max (rectXInterval a).1 (rectXInterval b).1 <
          min (rectXInterval a).2 (rectXInterval b).2)

/-! Concrete render inputs used by the scenario properties. -/

/-- The series scenario input: two frames with keys `t`, `a`, `b`. -/
def c3data : JSValue :=
  .arr [.obj [("t", .num 0), ("a", .num 0), ("b", .num 1)],
        .obj [("t", .num 1), ("a", .num 1), ("b", .num 0)]]

/-- The categorical scenario input: `openness` at one half, `pacing` at 1. -/
def c4data : JSValue :=
  .obj [("openness", .num (1/2)), ("pacing", .num 1)]

/-- A well-formed ordered sequence of two record frames, handed to the bar
branch to probe the shape-mismatch behavior. -/
def c1seq : JSValue :=
  .arr [.obj [("t", .num 0), ("a", .num 0)], .obj [("t", .num 1), ("a", .num 1)]]

/-- Three categories on a narrow surface of width 30: slot width 10 thirds,
bar width negative, so adjacent drawn bars overlap horizontally. -/
def c5data : JSValue :=
  .obj [("a", .num (1/2)), ("b", .num (1/2)), ("c", .num (1/2))]

/-- C1, counterexample.  The claim asserts that a `categorical` kind with an
ordered sequence draws nothing and never raises; but an array satisfies
`typeof data` equals the object string, so the bar branch runs on the
two-record sequence `c1seq`, and formatting the first value label calls
`toFixed` on a record, which raises a TypeError that escapes the renderer. -/
theorem C1_counterexample :
    (chartCanvasRender 800 200 "bar" c1seq).2 = some "TypeError" := by decide

/-- The bar branch on an entry list whose first value is a record: the
record is truthy, so `|| 0` keeps it, its coercion is NaN (the fill rect is
issued with NaN geometry and paints nothing), and `toFixed` on it raises a
TypeError that aborts the branch. -/
theorem renderBarBody_obj_head (W H slot : ℚ) (f : Frame) (key : String)
    (rest : List (String × JSValue)) :
    renderBarBody W H slot ((key, JSValue.obj f) :: rest) 0
      = ([Prim.fillRect "rgba(124,92,255,0.85)" (some (10 + (0 : ℚ) * slot + 5)) none
            (some (slot - 10)) none],
         some "TypeError") := by
  rw [renderBarBody]
  rw [if_neg (by simp [orZero, truthy, toFixedOk])]
  simp [orZero, truthy, toJNum, jmul, jsub]

/-- Unfolding of the bar branch on a non-empty array datum: clear and grid,
then the bar body over the index-keyed entries. -/
theorem chartCanvasRender_bar_arr (W H : ℚ) (elems : List JSValue) (h : elems ≠ []) :
    chartCanvasRender W H "bar" (.arr elems)
      = (clearGridPrims W H ++
          (renderBarBody W H ((W - 20) / ((barEntries (.arr elems)).length : ℚ))
            (barEntries (.arr elems)) 0).1,
         (renderBarBody W H ((W - 20) / ((barEntries (.arr elems)).length : ℚ))
            (barEntries (.arr elems)) 0).2) := by
  rw [chartCanvasRender]
  rw [if_neg (by simp [truthy])]
  rw [if_neg (by simp)]
  rw [if_pos ⟨rfl, rfl⟩]
  rw [if_neg (by simp [barEntries, h])]

/-- C1, amended.  A `series` kind with a mapping draws nothing beyond the
clear-and-grid step and raises nothing, for every mapping and surface; a
`categorical` kind with a non-empty ordered sequence of records, for every
such sequence and surface, instead enters the bar branch: it issues exactly
one NaN-geometry rect (which paints nothing) for the first slot and then
raises a TypeError calling `toFixed` on the first record. -/
theorem C1_amended_shape_mismatch :
    (∀ (W H : ℚ) (fields : Frame),
        chartCanvasRender W H "motion" (.obj fields) = (clearGridPrims W H, none)) ∧
    (∀ (W H : ℚ) (f : Frame) (fs : List Frame),
        chartCanvasRender W H "bar" (.arr ((f :: fs).map JSValue.obj))
          = (clearGridPrims W H ++
              [Prim.fillRect "rgba(124,92,255,0.85)" (some 15) none
                (some ((W - 20) / ((f :: fs).length : ℚ) - 10)) none],
             some "TypeError")) := by
  refine ⟨fun _ _ _ => rfl, ?_⟩
  intro W H f fs
  have hent : barEntries (.arr ((f :: fs).map JSValue.obj))
      = (Nat.repr 0, JSValue.obj f) ::
          (List.enumFrom 1 (fs.map JSValue.obj)).map (fun p => (Nat.repr p.1, p.2)) := rfl
  have hlen2 : ((Nat.repr 0, JSValue.obj f) ::
        (List.enumFrom 1 (fs.map JSValue.obj)).map (fun p => (Nat.repr p.1, p.2))).length
      = (f :: fs).length := by
    simp
  rw [chartCanvasRender_bar_arr W H ((f :: fs).map JSValue.obj) (by simp)]
  rw [hent, hlen2]
  rw [renderBarBody_obj_head]
  rw [show (10 : ℚ) + 0 * ((W - 20) / ((f :: fs).length : ℚ)) + 5 = 15 from by ring]

/-- C2, counterexample.  The claim asserts that even a render with absent
data first clears the surface and draws the 5 guide lines; but the source
returns before the clear (`if (!canvas || !data) return;`), so with
`undefined` data nothing at all is issued to the context. -/
theorem C2_counterexample :
    (chartCanvasRender 800 200 "motion" JSValue.undefined).1 = [] ∧
    Prim.clearRect 0 0 800 200 ∉ (chartCanvasRender 800 200 "motion" JSValue.undefined).1 := by
  decide

/-- C2, amended.  Falsy (absent/undefined) data skips the whole render,
clear-and-grid included; for every truthy `data` and any `type`, the render
first clears the full `W` by `H` region and draws the 5 evenly spaced guide
lines of `clearGridPrims` (at quarter intervals from `y = 20` to
`y = H - 20`), whatever happens afterwards. -/
theorem C2_amended_clear_and_grid :
    ∀ (W H : ℚ) (ty : String) (data : JSValue),
      (truthy data = false → chartCanvasRender W H ty data = ([], none)) ∧
      (truthy data = true →
        ∃ rest err, chartCanvasRender W H ty data = (clearGridPrims W H ++ rest, err)) := by
  intro W H ty data
  constructor
  · intro h
    simp [chartCanvasRender, h]
  · intro h
    rw [chartCanvasRender, if_neg (by simp [h])]
    split_ifs with h1 h2
    · cases hk : jsKeysE ((arrElems data).headD .undefined) with
      | error e => simp only [hk]; exact ⟨[], some e, by simp⟩
      | ok ks => simp only [hk]; exact ⟨_, _, rfl⟩
    · by_cases hz : (barEntries data).length = 0
      · rw [if_pos hz]; exact ⟨[], none, by simp⟩
      · rw [if_neg hz]; exact ⟨_, _, rfl⟩
    · exact ⟨[], none, by simp⟩

/-- C2, witness for the amended theorem: undefined data renders nothing at
all, while a truthy (even shape-less) datum gets the clear and the grid. -/
theorem C2_amended_witness :
    chartCanvasRender 800 200 "motion" JSValue.undefined = ([], none) ∧
    ∃ rest err, chartCanvasRender 800 200 "motion" (JSValue.num 1)
      = (clearGridPrims 800 200 ++ rest, err) :=
  ⟨(C2_amended_clear_and_grid 800 200 "motion" JSValue.undefined).1 (by decide),
   (C2_amended_clear_and_grid 800 200 "motion" (JSValue.num 1)).2 (by decide)⟩

/-- C3.  On the 800 by 200 surface, the series spec with frames
`t:0, a:0, b:1` and `t:1, a:1, b:0` strokes channel `a` from `(0, 180)` to
`(800, 20)` and channel `b` from `(0, 20)` to `(800, 180)` (plot top 20,
plot height 160); both paths appear among the issued primitives with line
width 2 and their palette colors. -/
theorem C3_series_concrete_scenario :
    Prim.strokePath "#22c55e" 2 [(some 0, some 180), (some 800, some 20)]
        ∈ (chartCanvasRender 800 200 "motion" c3data).1 ∧
    Prim.strokePath "#fbbf24" 2 [(some 0, some 20), (some 800, some 180)]
        ∈ (chartCanvasRender 800 200 "motion" c3data).1 := by decide

/-- C4.  On the 800 by 200 surface, the categorical spec `openness` one
half, `pacing` 1 draws exactly two bars: slot width `(800 - 20) / 2 = 390`,
bar width 380, the `openness` bar of height 80 (half the plot height) at
`(15, 100)` and the `pacing` bar of height 160 (the full plot height) at
`(405, 20)`; no error is raised. -/
theorem C4_bar_concrete_scenario :
    (chartCanvasRender 800 200 "bar" c4data).1.filter isFillRect
        = [Prim.fillRect "rgba(124,92,255,0.85)" (some 15) (some 100) (some 380) (some 80),
           Prim.fillRect "rgba(124,92,255,0.85)" (some 405) (some 20) (some 380) (some 160)] ∧
    ((800 : ℚ) - 20) / 2 = 390 ∧
    (chartCanvasRender 800 200 "bar" c4data).2 = none := by decide

/-- C5, counterexample.  With three categories on a surface of width 30 the
slot width is 10 thirds, the bar width is negative, and the first two drawn
bars overlap horizontally (extents 25 thirds to 15 and 35 thirds to 55
thirds), refuting the unrestricted no-overlap claim. -/
theorem C5_counterexample :
    ((chartCanvasRender 30 200 "bar" c5data).1.filter isFillRect).length = 3 ∧
    xOverlapB
      (((chartCanvasRender 30 200 "bar" c5data).1.filter isFillRect).getD 0
        (Prim.clearRect 0 0 0 0))
      (((chartCanvasRender 30 200 "bar" c5data).1.filter isFillRect).getD 1
        (Prim.clearRect 0 0 0 0)) = true := by decide

/-- C9.  Determinism: the render is a pure function of the surface size,
the chart kind and the spec data — the embedding needed no ambient state,
clock or randomness — so two successive calls on equal inputs issue
identical primitive lists, hence identical geometry for every drawn
primitive. -/
theorem C9_determinism :
    ∀ (W H : ℚ) (ty : String) (d₁ d₂ : JSValue),
      d₁ = d₂ → chartCanvasRender W H ty d₁ = chartCanvasRender W H ty d₂ := by
  intro W H ty d₁ d₂ h
  rw [h]

/-- C9, witness: two renders of the same concrete bar spec coincide. -/
theorem C9_witness :
    chartCanvasRender 800 200 "bar" c4data = chartCanvasRender 800 200 "bar" c4data :=
  C9_determinism 800 200 "bar" c4data c4data rfl

/-! Pure descriptions of the series body on object frames, used to reason
about the motion branch. -/

/-- The points of one channel over object frames: the pure value of
`seriesPoints` when every frame is an object (no TypeError possible). -/
def objPoints (W H : ℚ) (n : Nat) (key : String) : Nat → List Frame → List (Option ℚ × Option ℚ)
  | _, [] => []
  | i, f :: fs =>
      seriesPoint W H n i ((f.lookup key).getD .undefined) :: objPoints W H n key (i + 1) fs

/-- The series body over object frames: one stroked path per key, the pure
value of `seriesBody`. -/
def objBody (W H : ℚ) (n : Nat) (l : List Frame) : Nat → List String → List Prim
  | _, [] => []
  | idx, key :: ks =>
      Prim.strokePath (colors.getD (idx % colors.length) "#000") 2 (objPoints W H n key 0 l) ::
        objBody W H n l (idx + 1) ks

theorem seriesPoints_objs (W H : ℚ) (n : Nat) (key : String) :
    ∀ (l : List Frame) (i : Nat),
      seriesPoints W H n key i (l.map JSValue.obj) = .ok (objPoints W H n key i l) := by
  intro l
  induction l with
  | nil => intro i; rfl
  | cons f fs ih =>
      intro i
      simp only [seriesPoints, objPoints, getPropE, ih]
      rfl

theorem seriesBody_objs (W H : ℚ) :
    ∀ (ks : List String) (idx : Nat) (l : List Frame),
      seriesBody W H (l.map JSValue.obj) idx ks = (objBody W H l.length l idx ks, none) := by
  intro ks
  induction ks with
  | nil => intro idx l; rfl
  | cons k ks ih =>
      intro idx l
      simp [seriesBody, objBody, List.length_map, seriesPoints_objs, ih]

theorem objBody_length (W H : ℚ) (n : Nat) (l : List Frame) :
    ∀ (ks : List String) (idx : Nat), (objBody W H n l idx ks).length = ks.length := by
  intro ks
  induction ks with
  | nil => intro idx; rfl
  | cons k ks ih => intro idx; simp [objBody, ih]

/-- Unfolding of the motion branch on a sequence of at least two object
frames: clear and grid, then one path per non-reserved key of the first
frame, no exception. -/
theorem chartCanvasRender_motion_objs (W H : ℚ) (f : Frame) (fs : List Frame)
    (h : 0 < fs.length) :
    chartCanvasRender W H "motion" (.arr ((f :: fs).map JSValue.obj))
      = (clearGridPrims W H ++
          objBody W H (f :: fs).length (f :: fs) 0
            ((f.map Prod.fst).filter (fun k => k != "time")),
         none) := by
  rw [chartCanvasRender]
  rw [if_neg (by simp [truthy])]
  rw [if_pos ⟨rfl, rfl, by simp [arrElems]; omega⟩]
  show (clearGridPrims W H ++ (seriesBody W H ((f :: fs).map JSValue.obj) 0
          ((f.map Prod.fst).filter (fun k => k != "time"))).1,
        (seriesBody W H ((f :: fs).map JSValue.obj) 0
          ((f.map Prod.fst).filter (fun k => k != "time"))).2) = _
  rw [seriesBody_objs]

theorem objPoints_append (W H : ℚ) (n : Nat) (key : String) :
    ∀ (l : List Frame) (i : Nat) (f : Frame),
      objPoints W H n key i (l ++ [f])
        = objPoints W H n key i l ++
            [seriesPoint W H n (i + l.length) ((f.lookup key).getD .undefined)] := by
  intro l
  induction l with
  | nil => intro i f; simp [objPoints]
  | cons g gs ih =>
      intro i f
      have heq : i + 1 + gs.length = i + (gs.length + 1) := by omega
      calc objPoints W H n key i ((g :: gs) ++ [f])
          = seriesPoint W H n i ((g.lookup key).getD .undefined) ::
              objPoints W H n key (i + 1) (gs ++ [f]) := rfl
        _ = seriesPoint W H n i ((g.lookup key).getD .undefined) ::
              (objPoints W H n key (i + 1) gs ++
                [seriesPoint W H n (i + 1 + gs.length)
                  ((f.lookup key).getD .undefined)]) := by rw [ih]
        _ = objPoints W H n key i (g :: gs) ++
              [seriesPoint W H n (i + (gs.length + 1))
                ((f.lookup key).getD .undefined)] := by
              rw [heq]
              rfl

theorem objPoints_head (W H : ℚ) (n : Nat) (key : String) (f : Frame) (fs : List Frame) (i : Nat) :
    (objPoints W H n key i (f :: fs)).head?
      = some (seriesPoint W H n i ((f.lookup key).getD .undefined)) := by
  simp [objPoints]

theorem seriesPoint_x_first (W H : ℚ) (n : Nat) (v : JSValue) (h : 2 ≤ n) :
    (seriesPoint W H n 0 v).1 = some 0 := by
  have h2 : (2 : ℚ) ≤ (n : ℚ) := by exact_mod_cast h
  have hne : ((n : ℚ) - 1) ≠ 0 := by linarith
  simp [seriesPoint, jdiv, jmul, hne]

theorem seriesPoint_x_lastIdx (W H : ℚ) (n : Nat) (v : JSValue) (h : 2 ≤ n) :
    (seriesPoint W H n (n - 1) v).1 = some W := by
  have h2 : (2 : ℚ) ≤ (n : ℚ) := by exact_mod_cast h
  have hne : ((n : ℚ) - 1) ≠ 0 := by linarith
  have hcast : (((n - 1 : Nat)) : ℚ) = (n : ℚ) - 1 := by
    rw [Nat.cast_sub (by omega : 1 ≤ n), Nat.cast_one]
  simp [seriesPoint, jdiv, jmul, hne, hcast, div_self]

theorem mem_objBody (W H : ℚ) (n : Nat) (l : List Frame) :
    ∀ (ks : List String) (idx : Nat) (p : Prim), p ∈ objBody W H n l idx ks →
      ∃ key j, key ∈ ks ∧
        p = Prim.strokePath (colors.getD (j % colors.length) "#000") 2
              (objPoints W H n key 0 l) := by
  intro ks
  induction ks with
  | nil => intro idx p h; simp [objBody] at h
  | cons k ks ih =>
      intro idx p h
      simp only [objBody, List.mem_cons] at h
      rcases h with h | h
      · exact ⟨k, idx, by simp, h⟩
      · obtain ⟨key, j, hk, hp⟩ := ih (idx + 1) p h
        exact ⟨key, j, by simp [hk], hp⟩

/-- C7.  Endpoint anchoring: in motion (series) mode, on any sequence of at
least two object frames, every stroked path among the issued primitives
(the guide lines and every channel path alike) starts at `x = 0` and ends
exactly at `x = W`, because `x_i = (i / (n - 1)) * W` gives `0` at `i = 0`
and `W` at `i = n - 1`. -/
theorem C7_endpoint_anchoring :
    ∀ (W H : ℚ) (l : List Frame) (c : String) (lw : ℚ)
      (pts : List (Option ℚ × Option ℚ)),
      2 ≤ l.length →
      Prim.strokePath c lw pts ∈ (chartCanvasRender W H "motion" (.arr (l.map JSValue.obj))).1 →
      ∃ p q, pts.head? = some p ∧ pts.getLast? = some q ∧ p.1 = some 0 ∧ q.1 = some W := by
  intro W H l c lw pts hl hmem
  obtain ⟨f, fs, rfl⟩ : ∃ f fs, l = f :: fs := by
    cases l with
    | nil => simp at hl
    | cons f fs => exact ⟨f, fs, rfl⟩
  have hfs : 0 < fs.length := by
    simp only [List.length_cons] at hl
    omega
  have hn : 2 ≤ (f :: fs).length := by simp; omega
  rw [chartCanvasRender_motion_objs W H f fs hfs] at hmem
  simp only [List.mem_append] at hmem
  rcases hmem with hg | hb
  · simp only [clearGridPrims, List.mem_cons, List.mem_map] at hg
    rcases hg with h | ⟨i, _, h⟩
    · exact absurd h (by simp)
    · obtain ⟨-, -, hpts⟩ := Prim.strokePath.inj h
      refine ⟨(some 0, some (20 + (H - 40) * ((i : ℚ) / 4))),
              (some W, some (20 + (H - 40) * ((i : ℚ) / 4))), ?_, ?_, rfl, rfl⟩
      · rw [← hpts]
        rfl
      · rw [← hpts]
        simp
  · obtain ⟨key, j, -, hp⟩ := mem_objBody W H (f :: fs).length (f :: fs) _ 0 _ hb
    obtain ⟨-, -, hpts⟩ := Prim.strokePath.inj hp
    rcases List.eq_nil_or_concat (f :: fs) with hnil | ⟨l', a, hla⟩
    · simp at hnil
    · rw [List.concat_eq_append] at hla
      have hlen : l'.length = (f :: fs).length - 1 := by
        rw [hla]
        simp
      have hsplit : objPoints W H (f :: fs).length key 0 (f :: fs)
          = objPoints W H (f :: fs).length key 0 l' ++
              [seriesPoint W H (f :: fs).length (0 + l'.length)
                ((a.lookup key).getD .undefined)] := by
        rw [show objPoints W H (f :: fs).length key 0 (f :: fs)
              = objPoints W H (f :: fs).length key 0 (l' ++ [a]) from by rw [hla]]
        exact objPoints_append W H (f :: fs).length key l' 0 a
      refine ⟨seriesPoint W H (f :: fs).length 0 ((f.lookup key).getD .undefined),
              seriesPoint W H (f :: fs).length ((f :: fs).length - 1)
                ((a.lookup key).getD .undefined), ?_, ?_, ?_, ?_⟩
      · rw [hpts, objPoints_head]
      · rw [hpts, hsplit, List.getLast?_concat, Nat.zero_add, hlen]
      · exact seriesPoint_x_first W H (f :: fs).length _ hn
      · exact seriesPoint_x_lastIdx W H (f :: fs).length _ hn

/-- C7, witness: on a two-frame sequence with the single channel `a`, the
channel path runs from `x = 0` to `x = 800`. -/
theorem C7_witness :
    ∃ p q, ([(some (0:ℚ), some (180:ℚ)), (some 800, some 20)]
              : List (Option ℚ × Option ℚ)).head? = some p ∧
      ([(some (0:ℚ), some (180:ℚ)), (some 800, some 20)]
              : List (Option ℚ × Option ℚ)).getLast? = some q ∧
      p.1 = some 0 ∧ q.1 = some 800 :=
  C7_endpoint_anchoring 800 200 [[("a", JSValue.num 0)], [("a", JSValue.num 1)]]
    "#7c5cff" 2 [(some 0, some 180), (some 800, some 20)] (by decide) (by decide)

/-- C8.  Channel selection: in series mode the issued chart body consists,
in order, of exactly one stroked path per key of the first frame with the
reserved key removed (the source keeps `k` with `k != "time"`, in
first-seen order), and the reserved key is not among the stroked channel
keys. -/
theorem C8_channel_selection :
    ∀ (W H : ℚ) (f : Frame) (fs : List Frame),
      0 < fs.length → (f.map Prod.fst).Nodup →
      (chartCanvasRender W H "motion" (.arr ((f :: fs).map JSValue.obj))).1
          = clearGridPrims W H ++
              objBody W H (f :: fs).length (f :: fs) 0
                ((f.map Prod.fst).filter (fun k => k != "time")) ∧
      "time" ∉ (f.map Prod.fst).filter (fun k => k != "time") ∧
      (objBody W H (f :: fs).length (f :: fs) 0
          ((f.map Prod.fst).filter (fun k => k != "time"))).length
        = ((f.map Prod.fst).filter (fun k => k != "time")).length := by
  intro W H f fs h hnd
  refine ⟨?_, ?_, objBody_length W H (f :: fs).length (f :: fs) _ 0⟩
  · rw [chartCanvasRender_motion_objs W H f fs h]
  · simp

/-- First frame of the C8 witness, holding the reserved key and a channel. -/
def c8f : Frame := [("time", JSValue.num 0), ("a", JSValue.num (1/2))]

/-- Remaining frames of the C8 witness. -/
def c8fs : List Frame := [[("time", JSValue.num 1), ("a", JSValue.num 1)]]

/-- C8, witness: a two-frame series whose first frame has keys `time` and
`a` draws exactly the one channel path for `a`. -/
theorem C8_witness :
    (chartCanvasRender 800 200 "motion" (.arr ((c8f :: c8fs).map JSValue.obj))).1
        = clearGridPrims 800 200 ++
            objBody 800 200 (c8f :: c8fs).length (c8f :: c8fs) 0
              ((c8f.map Prod.fst).filter (fun k => k != "time")) ∧
    "time" ∉ (c8f.map Prod.fst).filter (fun k => k != "time") ∧
    (objBody 800 200 (c8f :: c8fs).length (c8f :: c8fs) 0
        ((c8f.map Prod.fst).filter (fun k => k != "time"))).length
      = ((c8f.map Prod.fst).filter (fun k => k != "time")).length :=
  C8_channel_selection 800 200 c8f c8fs (by decide) (by decide)

/-- Extension of every frame of a series by one trailing channel key `kn`,
frame `i` receiving the i-th of `vals`. -/
def extendFrames (kn : String) (l : List Frame) (vals : List JSValue) : List Frame :=
  List.zipWith (fun f v => f ++ [(kn, v)]) l vals

theorem lookup_append_single (k kn : String) (v : JSValue) (hne : k ≠ kn) :
    ∀ (f : Frame), List.lookup k (f ++ [(kn, v)]) = List.lookup k f := by
  intro f
  induction f with
  | nil =>
      have hb : (k == kn) = false := beq_eq_false_iff_ne.mpr hne
      simp [List.lookup, hb]
  | cons a f ih =>
      obtain ⟨a1, a2⟩ := a
      simp only [List.cons_append, List.lookup]
      cases h : (k == a1) <;> simp [ih]

theorem objPoints_extend (W H : ℚ) (n : Nat) (key kn : String) (hne : key ≠ kn) :
    ∀ (l : List Frame) (vals : List JSValue) (i : Nat), l.length = vals.length →
      objPoints W H n key i (extendFrames kn l vals) = objPoints W H n key i l := by
  intro l
  induction l with
  | nil => intro vals i _; rfl
  | cons f fs ih =>
      intro vals i h
      cases vals with
      | nil => simp at h
      | cons v vs =>
          show objPoints W H n key i ((f ++ [(kn, v)]) :: extendFrames kn fs vs) = _
          simp only [objPoints]
          rw [lookup_append_single key kn v hne f]
          rw [ih vs (i + 1) (by simpa using h)]

theorem objBody_extend (W H : ℚ) (n : Nat) (kn : String) (l : List Frame)
    (vals : List JSValue) (hlen : l.length = vals.length) :
    ∀ (ks : List String) (idx : Nat), (∀ k ∈ ks, k ≠ kn) →
      objBody W H n (extendFrames kn l vals) idx ks = objBody W H n l idx ks := by
  intro ks
  induction ks with
  | nil => intro idx _; rfl
  | cons k ks ih =>
      intro idx h
      simp only [objBody]
      rw [objPoints_extend W H n k kn (h k (by simp)) l vals 0 hlen]
      rw [ih (idx + 1) (fun k2 hk2 => h k2 (by simp [hk2]))]

theorem objBody_append_single (W H : ℚ) (n : Nat) (l : List Frame) (k : String) :
    ∀ (ks : List String) (idx : Nat),
      objBody W H n l idx (ks ++ [k])
        = objBody W H n l idx ks ++
            [Prim.strokePath (colors.getD ((idx + ks.length) % colors.length) "#000") 2
              (objPoints W H n k 0 l)] := by
  intro ks
  induction ks with
  | nil => intro idx; simp [objBody]
  | cons k2 ks ih =>
      intro idx
      calc objBody W H n l idx ((k2 :: ks) ++ [k])
          = Prim.strokePath (colors.getD (idx % colors.length) "#000") 2
              (objPoints W H n k2 0 l) :: objBody W H n l (idx + 1) (ks ++ [k]) := rfl
        _ = Prim.strokePath (colors.getD (idx % colors.length) "#000") 2
              (objPoints W H n k2 0 l) ::
              (objBody W H n l (idx + 1) ks ++
                [Prim.strokePath
                  (colors.getD ((idx + 1 + ks.length) % colors.length) "#000") 2
                  (objPoints W H n k 0 l)]) := by rw [ih]
        _ = objBody W H n l idx (k2 :: ks) ++
              [Prim.strokePath
                (colors.getD ((idx + (k2 :: ks).length) % colors.length) "#000") 2
                (objPoints W H n k 0 l)] := by
              have heq : idx + 1 + ks.length = idx + (k2 :: ks).length := by
                simp
                omega
              rw [heq]
              rfl

/-- C6.  Channel independence: appending a fresh channel key (distinct from
the reserved key and from every key of the first frame) to every frame of a
series of at least two object frames produces exactly one additional
stroked path, colored with the next palette entry
`colors[existingChannelCount % colors.length]` (the palette has length 4),
as a suffix after the unchanged primitives of the original render: the
geometry of every previously existing channel path is untouched, and
neither render raises. -/
theorem C6_channel_independence :
    ∀ (W H : ℚ) (f : Frame) (fs : List Frame) (vals : List JSValue) (kn : String),
      0 < fs.length → vals.length = (f :: fs).length →
      kn ≠ "time" → kn ∉ f.map Prod.fst →
      colors.length = 4 ∧
      ∃ pts,
        (chartCanvasRender W H "motion"
            (.arr ((extendFrames kn (f :: fs) vals).map JSValue.obj))).1
          = (chartCanvasRender W H "motion" (.arr ((f :: fs).map JSValue.obj))).1
              ++ [Prim.strokePath
                    (colors.getD
                      (((f.map Prod.fst).filter (fun k => k != "time")).length
                        % colors.length) "#000") 2 pts] ∧
        (chartCanvasRender W H "motion"
            (.arr ((extendFrames kn (f :: fs) vals).map JSValue.obj))).2 = none ∧
        (chartCanvasRender W H "motion" (.arr ((f :: fs).map JSValue.obj))).2 = none := by
  intro W H f fs vals kn hfs hlen hkt hkf
  obtain ⟨v0, vs, rfl⟩ : ∃ v0 vs, vals = v0 :: vs := by
    cases vals with
    | nil => simp at hlen
    | cons a b => exact ⟨a, b, rfl⟩
  have hvs : vs.length = fs.length := by simpa using hlen
  have hext : extendFrames kn (f :: fs) (v0 :: vs)
      = (f ++ [(kn, v0)]) :: extendFrames kn fs vs := rfl
  have hextlen : (extendFrames kn fs vs).length = fs.length := by
    simp [extendFrames, hvs]
  have hext0 : 0 < (extendFrames kn fs vs).length := by
    rw [hextlen]
    exact hfs
  have hbase := chartCanvasRender_motion_objs W H f fs hfs
  have hextren := chartCanvasRender_motion_objs W H (f ++ [(kn, v0)])
    (extendFrames kn fs vs) hext0
  rw [hext, hextren, hbase]
  refine ⟨rfl,
    objPoints W H ((f ++ [(kn, v0)]) :: extendFrames kn fs vs).length kn 0
      ((f ++ [(kn, v0)]) :: extendFrames kn fs vs), ?_, rfl, rfl⟩
  have hknb : (kn != "time") = true := bne_iff_ne.mpr hkt
  have hkeys : ((f ++ [(kn, v0)]).map Prod.fst).filter (fun k => k != "time")
      = (f.map Prod.fst).filter (fun k => k != "time") ++ [kn] := by
    simp [List.filter_append, hknb]
  rw [hkeys, objBody_append_single]
  have hlentot : ((f ++ [(kn, v0)]) :: extendFrames kn fs vs).length
      = (f :: fs).length := by
    simp [hextlen]
  have hcong : objBody W H ((f ++ [(kn, v0)]) :: extendFrames kn fs vs).length
      ((f ++ [(kn, v0)]) :: extendFrames kn fs vs) 0
      ((f.map Prod.fst).filter (fun k => k != "time"))
      = objBody W H (f :: fs).length (f :: fs) 0
          ((f.map Prod.fst).filter (fun k => k != "time")) := by
    rw [hlentot]
    rw [show (f ++ [(kn, v0)]) :: extendFrames kn fs vs
          = extendFrames kn (f :: fs) (v0 :: vs) from rfl]
    exact objBody_extend W H (f :: fs).length kn (f :: fs) (v0 :: vs)
      (by simpa using hlen.symm) _ 0
      (fun k hk hkkn => hkf (hkkn ▸ (List.mem_filter.1 hk).1))
  rw [hcong]
  simp [List.append_assoc]

/-- First frame of the C6 witness. -/
def c6f : Frame := [("a", JSValue.num 0)]

/-- Remaining frames of the C6 witness. -/
def c6fs : List Frame := [[("a", JSValue.num 1)]]

/-- Per-frame values of the added channel in the C6 witness. -/
def c6vals : List JSValue := [JSValue.num 0, JSValue.num 1]

/-- C6, witness: adding channel `b` to a two-frame one-channel series adds
exactly one path with the second palette color and keeps the rest. -/
theorem C6_witness :
    colors.length = 4 ∧
    ∃ pts,
      (chartCanvasRender 800 200 "motion"
          (.arr ((extendFrames "b" (c6f :: c6fs) c6vals).map JSValue.obj))).1
        = (chartCanvasRender 800 200 "motion" (.arr ((c6f :: c6fs).map JSValue.obj))).1
            ++ [Prim.strokePath
                  (colors.getD
                    (((c6f.map Prod.fst).filter (fun k => k != "time")).length
                      % colors.length) "#000") 2 pts] ∧
      (chartCanvasRender 800 200 "motion"
          (.arr ((extendFrames "b" (c6f :: c6fs) c6vals).map JSValue.obj))).2 = none ∧
      (chartCanvasRender 800 200 "motion" (.arr ((c6f :: c6fs).map JSValue.obj))).2 = none :=
  C6_channel_independence 800 200 c6f c6fs c6vals "b" (by decide) (by decide)
    (by decide) (by decide)

/-- A channel or category value the renderer can plot as a number: a plain
number, or any falsy value (which `v || 0` turns into the number 0). -/
def plottable (v : JSValue) : Bool :=
  match v with
  | .num _ => true
  | _ => !truthy v

theorem plottable_orZero (v : JSValue) (h : plottable v = true) :
    toFixedOk (orZero v) = true ∧ ∃ q, toJNum (orZero v) = some q := by
  cases v with
  | num q =>
      by_cases hq : truthy (JSValue.num q) = true
      · exact ⟨by simp [orZero, hq, toFixedOk], q, by simp [orZero, hq, toJNum]⟩
      · have hq' : truthy (JSValue.num q) = false := by
          cases hh : truthy (JSValue.num q)
          · rfl
          · exact absurd hh hq
        exact ⟨by simp [orZero, hq', toFixedOk], 0, by simp [orZero, hq', toJNum]⟩
  | nan => exact ⟨by simp [orZero, truthy, toFixedOk], 0, by simp [orZero, truthy, toJNum]⟩
  | str s =>
      have hs : truthy (JSValue.str s) = false := by
        simp [plottable] at h
        exact h
      exact ⟨by simp [orZero, hs, toFixedOk], 0, by simp [orZero, hs, toJNum]⟩
  | bool b =>
      have hb : truthy (JSValue.bool b) = false := by
        simp [plottable, truthy] at h
        simp [truthy, h]
      exact ⟨by simp [orZero, hb, toFixedOk], 0, by simp [orZero, hb, toJNum]⟩
  | null => exact ⟨by simp [orZero, truthy, toFixedOk], 0, by simp [orZero, truthy, toJNum]⟩
  | undefined =>
      exact ⟨by simp [orZero, truthy, toFixedOk], 0, by simp [orZero, truthy, toJNum]⟩
  | obj fields => simp [plottable, truthy] at h
  | arr elems => simp [plottable, truthy] at h

/-- The fill rects the bar branch issues over the given entries, starting
at slot `i`. -/
def barRects (W H slot : ℚ) : List (String × JSValue) → Nat → List Prim
  | [], _ => []
  | (_, v) :: rest, i =>
      Prim.fillRect "rgba(124,92,255,0.85)" (some (10 + (i : ℚ) * slot + 5))
        (jsub (some (H - 20)) (jmul (toJNum (orZero v)) (some (H - 40))))
        (some (slot - 10))
        (jmul (toJNum (orZero v)) (some (H - 40))) :: barRects W H slot rest (i + 1)

theorem renderBarBody_plottable (W H slot : ℚ) :
    ∀ (entries : List (String × JSValue)) (i : Nat),
      (∀ p ∈ entries, plottable p.2 = true) →
      (renderBarBody W H slot entries i).2 = none ∧
      (renderBarBody W H slot entries i).1.filter isFillRect = barRects W H slot entries i := by
  intro entries
  induction entries with
  | nil => intro i _; exact ⟨rfl, rfl⟩
  | cons e rest ih =>
      intro i h
      obtain ⟨key, v⟩ := e
      have hv := plottable_orZero v (h (key, v) (by simp))
      have hr := ih (i + 1) (fun p hp => h p (by simp [hp]))
      rw [renderBarBody]
      rw [if_pos hv.1]
      refine ⟨hr.1, ?_⟩
      simp only [List.filter, isFillRect, barRects]
      rw [hr.2]

theorem barRects_length (W H slot : ℚ) :
    ∀ (entries : List (String × JSValue)) (i : Nat),
      (barRects W H slot entries i).length = entries.length := by
  intro entries
  induction entries with
  | nil => intro i; rfl
  | cons e rest ih =>
      intro i
      obtain ⟨key, v⟩ := e
      simp [barRects, ih]

theorem barRects_sum (W H slot : ℚ) :
    ∀ (entries : List (String × JSValue)) (i : Nat),
      ((barRects W H slot entries i).map (fun r => rectW r + 10)).sum
        = (entries.length : ℚ) * slot := by
  intro entries
  induction entries with
  | nil => intro i; simp [barRects]
  | cons e rest ih =>
      intro i
      obtain ⟨key, v⟩ := e
      simp only [barRects, List.map_cons, List.sum_cons]
      rw [ih (i + 1)]
      rw [show rectW (Prim.fillRect "rgba(124,92,255,0.85)"
            (some (10 + (i : ℚ) * slot + 5))
            (jsub (some (H - 20)) (jmul (toJNum (orZero v)) (some (H - 40))))
            (some (slot - 10)) (jmul (toJNum (orZero v)) (some (H - 40))))
          = slot - 10 from rfl]
      simp only [List.length_cons]
      push_cast
      ring

theorem mem_barRects (W H slot : ℚ) :
    ∀ (entries : List (String × JSValue)) (i : Nat) (p : Prim),
      p ∈ barRects W H slot entries i →
      ∃ j v, i ≤ j ∧ (∃ key, (key, v) ∈ entries) ∧
        p = Prim.fillRect "rgba(124,92,255,0.85)" (some (10 + (j : ℚ) * slot + 5))
              (jsub (some (H - 20)) (jmul (toJNum (orZero v)) (some (H - 40))))
              (some (slot - 10))
              (jmul (toJNum (orZero v)) (some (H - 40))) := by
  intro entries
  induction entries with
  | nil => intro i p h; simp [barRects] at h
  | cons e rest ih =>
      intro i p h
      obtain ⟨key, v⟩ := e
      simp only [barRects, List.mem_cons] at h
      rcases h with h | h
      · exact ⟨i, v, le_refl i, ⟨key, by simp⟩, h⟩
      · obtain ⟨j, v2, hj, ⟨k2, hk2⟩, hp⟩ := ih (i + 1) p h
        exact ⟨j, v2, by omega, ⟨k2, by simp [hk2]⟩, hp⟩

theorem rects_no_overlap (slot : ℚ) (hs : 5 ≤ slot) (i j : Nat) (hij : i < j)
    (y1 h1 y2 h2 : Option ℚ) (c1 c2 : String) :
    xOverlapB (Prim.fillRect c1 (some (10 + (i : ℚ) * slot + 5)) y1 (some (slot - 10)) h1)
              (Prim.fillRect c2 (some (10 + (j : ℚ) * slot + 5)) y2 (some (slot - 10)) h2)
      = false := by
  have hij' : (i : ℚ) + 1 ≤ (j : ℚ) := by exact_mod_cast hij
  rw [xOverlapB, decide_eq_false_iff_not, not_lt]
  simp only [rectXInterval]
  have key : max (10 + (i : ℚ) * slot + 5) (10 + (i : ℚ) * slot + 5 + (slot - 10))
      ≤ min (10 + (j : ℚ) * slot + 5) (10 + (j : ℚ) * slot + 5 + (slot - 10)) := by
    apply max_le
    · apply le_min
      · nlinarith
      · nlinarith
    · apply le_min
      · nlinarith
      · nlinarith
  exact le_trans (min_le_left _ _) (le_trans key (le_max_right _ _))

theorem barRects_pairwise (W H slot : ℚ) (hs : 5 ≤ slot) :
    ∀ (entries : List (String × JSValue)) (i : Nat),
      (barRects W H slot entries i).Pairwise (fun a b => xOverlapB a b = false) := by
  intro entries
  induction entries with
  | nil => intro i; simp [barRects]
  | cons e rest ih =>
      intro i
      obtain ⟨key, v⟩ := e
      refine List.Pairwise.cons ?_ (ih (i + 1))
      intro b hb
      obtain ⟨j, v2, hj, -, hp⟩ := mem_barRects W H slot rest (i + 1) b hb
      rw [hp]
      exact rects_no_overlap slot hs i j (by omega) _ _ _ _ _ _

/-- Unfolding of the bar branch on a non-empty category mapping: clear and
grid, then the bar body with slot width `(W - 20) / m`. -/
theorem chartCanvasRender_bar_obj (W H : ℚ) (fields : Frame) (h : fields ≠ []) :
    chartCanvasRender W H "bar" (.obj fields)
      = (clearGridPrims W H ++
          (renderBarBody W H ((W - 20) / (fields.length : ℚ)) fields 0).1,
         (renderBarBody W H ((W - 20) / (fields.length : ℚ)) fields 0).2) := by
  rw [chartCanvasRender]
  rw [if_neg (by simp [truthy])]
  rw [if_neg (by simp)]
  rw [if_pos ⟨rfl, rfl⟩]
  rw [if_neg (by simp [barEntries, h])]
  rfl

theorem clearGrid_filter_fillRect (W H : ℚ) :
    (clearGridPrims W H).filter isFillRect = [] := rfl

theorem fillRect_not_mem_clearGrid (W H : ℚ) (c : String) (x y w h : Option ℚ) :
    Prim.fillRect c x y w h ∉ clearGridPrims W H := by
  intro hmem
  have h2 : Prim.fillRect c x y w h ∈ (clearGridPrims W H).filter isFillRect :=
    List.mem_filter.mpr ⟨hmem, rfl⟩
  rw [clearGrid_filter_fillRect] at h2
  simp at h2

/-- C5, amended.  Bar partition: for `m` at least 1 numeric-or-falsy
categories on a surface of width `W` wide enough that the slot width
`(W - 20) / m` is at least 5 (equivalently `5 m` at most `W - 20`), the
renderer draws exactly `m` bars, the sum of (bar width + the 10px slot
margin) over all bars equals `W - 20` exactly, and no two drawn bars
overlap horizontally; without the slot-width bound the no-overlap part
fails (see the counterexample), because a slot narrower than 5px gives
bars of negative width whose reflected extents cross. -/
theorem C5_amended_bar_partition :
    ∀ (W H : ℚ) (fields : Frame),
      fields ≠ [] →
      (∀ p ∈ fields, plottable p.2 = true) →
      5 * (fields.length : ℚ) ≤ W - 20 →
      (chartCanvasRender W H "bar" (.obj fields)).2 = none ∧
      ((chartCanvasRender W H "bar" (.obj fields)).1.filter isFillRect).length
        = fields.length ∧
      (((chartCanvasRender W H "bar" (.obj fields)).1.filter isFillRect).map
          (fun r => rectW r + 10)).sum = W - 20 ∧
      ((chartCanvasRender W H "bar" (.obj fields)).1.filter isFillRect).Pairwise
        (fun a b => xOverlapB a b = false) := by
  intro W H fields hne hp hW
  have hm : (0 : ℚ) < (fields.length : ℚ) := by
    have h0 : 0 < fields.length := List.length_pos.mpr hne
    exact_mod_cast h0
  have hs5 : 5 ≤ (W - 20) / (fields.length : ℚ) := by
    rw [le_div_iff₀ hm]
    linarith
  have hbody := renderBarBody_plottable W H ((W - 20) / (fields.length : ℚ)) fields 0 hp
  rw [chartCanvasRender_bar_obj W H fields hne]
  have hfilter : ((clearGridPrims W H ++
        (renderBarBody W H ((W - 20) / (fields.length : ℚ)) fields 0).1,
        (renderBarBody W H ((W - 20) / (fields.length : ℚ)) fields 0).2).1).filter isFillRect
      = barRects W H ((W - 20) / (fields.length : ℚ)) fields 0 := by
    show (clearGridPrims W H ++
        (renderBarBody W H ((W - 20) / (fields.length : ℚ)) fields 0).1).filter isFillRect = _
    rw [List.filter_append, clearGrid_filter_fillRect, hbody.2, List.nil_append]
  refine ⟨hbody.1, ?_, ?_, ?_⟩
  · rw [hfilter, barRects_length]
  · rw [hfilter, barRects_sum, mul_comm, div_mul_cancel₀]
    exact ne_of_gt hm
  · rw [hfilter]
    exact barRects_pairwise W H _ hs5 fields 0

/-- The category mapping of the C5 witness. -/
def c5wfields : Frame := [("openness", JSValue.num (1/2)), ("pacing", JSValue.num 1)]

/-- C5, witness for the amended theorem: two categories on the 800-wide
surface partition `780` exactly and do not overlap. -/
theorem C5_amended_witness :
    (chartCanvasRender 800 200 "bar" (.obj c5wfields)).2 = none ∧
    ((chartCanvasRender 800 200 "bar" (.obj c5wfields)).1.filter isFillRect).length
      = c5wfields.length ∧
    (((chartCanvasRender 800 200 "bar" (.obj c5wfields)).1.filter isFillRect).map
        (fun r => rectW r + 10)).sum = 800 - 20 ∧
    ((chartCanvasRender 800 200 "bar" (.obj c5wfields)).1.filter isFillRect).Pairwise
      (fun a b => xOverlapB a b = false) :=
  C5_amended_bar_partition 800 200 c5wfields (by simp [c5wfields]) (by decide) (by decide)

theorem falsy_plottable (v : JSValue) (h : truthy v = false) : plottable v = true := by
  cases v <;> simp [plottable, h]

/-- Render of the bar branch on the empty mapping: grid only, no error. -/
theorem chartCanvasRender_bar_nil (W H : ℚ) :
    chartCanvasRender W H "bar" (.obj []) = (clearGridPrims W H, none) := rfl

/-- C10.  Falsy propagation: any falsy channel or category value (0, NaN,
the empty string, false, null, undefined or a missing key) is replaced by 0
before geometry is computed, so in series mode the computed point sits on
the baseline `y = H - 20`, and in bar mode every drawn bar over falsy
values has height `some 0` and top edge `y = some (H - 20)`, with no error
raised. -/
theorem C10_falsy_values_zero :
    (∀ (W H : ℚ) (n i : Nat) (v : JSValue), truthy v = false →
        (seriesPoint W H n i v).2 = some (H - 20)) ∧
    (∀ (W H : ℚ) (fields : Frame),
        (∀ p ∈ fields, truthy p.2 = false) →
        (chartCanvasRender W H "bar" (.obj fields)).2 = none ∧
        ∀ c x y w hh, Prim.fillRect c x y w hh ∈ (chartCanvasRender W H "bar" (.obj fields)).1 →
          hh = some 0 ∧ y = some (H - 20)) := by
  constructor
  · intro W H n i v hv
    simp [seriesPoint, orZero, hv, toJNum, jmul, jsub]
  · intro W H fields hf
    by_cases hne : fields = []
    · subst hne
      rw [chartCanvasRender_bar_nil]
      refine ⟨rfl, ?_⟩
      intro c x y w hh hmem
      exact absurd hmem (fillRect_not_mem_clearGrid W H c x y w hh)
    · have hplot : ∀ p ∈ fields, plottable p.2 = true :=
        fun p hp => falsy_plottable p.2 (hf p hp)
      have hbody := renderBarBody_plottable W H ((W - 20) / (fields.length : ℚ)) fields 0 hplot
      rw [chartCanvasRender_bar_obj W H fields hne]
      refine ⟨hbody.1, ?_⟩
      intro c x y w hh hmem
      have hmem' : Prim.fillRect c x y w hh
          ∈ clearGridPrims W H ++ (renderBarBody W H ((W - 20) / (fields.length : ℚ)) fields 0).1 :=
        hmem
      rcases List.mem_append.mp hmem' with hg | hb
      · exact absurd hg (fillRect_not_mem_clearGrid W H c x y w hh)
      · have hbf : Prim.fillRect c x y w hh
            ∈ ((renderBarBody W H ((W - 20) / (fields.length : ℚ)) fields 0).1).filter isFillRect :=
          List.mem_filter.mpr ⟨hb, rfl⟩
        rw [hbody.2] at hbf
        obtain ⟨j, v, -, ⟨key, hkv⟩, hp⟩ :=
          mem_barRects W H ((W - 20) / (fields.length : ℚ)) fields 0 _ hbf
        have hv : truthy v = false := hf (key, v) hkv
        obtain ⟨-, -, hy, -, hhh⟩ := Prim.fillRect.inj hp
        constructor
        · rw [hhh]
          simp [orZero, hv, toJNum, jmul]
        · rw [hy]
          simp [orZero, hv, toJNum, jmul, jsub]

/-- C10, witness: a NaN series value lands on the baseline, and a bar over
a `null` value is drawn with height 0 at the baseline, with no error. -/
theorem C10_witness :
    (seriesPoint 800 200 2 0 JSValue.nan).2 = some (200 - 20) ∧
    (chartCanvasRender 800 200 "bar" (.obj [("a", JSValue.null)])).2 = none ∧
    ((some (0 : ℚ) : Option ℚ) = some 0 ∧ (some (180 : ℚ) : Option ℚ) = some (200 - 20)) :=
  ⟨C10_falsy_values_zero.1 800 200 2 0 JSValue.nan rfl,
   (C10_falsy_values_zero.2 800 200 [("a", JSValue.null)] (by decide)).1,
   (C10_falsy_values_zero.2 800 200 [("a", JSValue.null)] (by decide)).2
     "rgba(124,92,255,0.85)" (some 15) (some 180) (some 770) (some 0) (by decide)⟩
